import Mathlib

/-
Shallow embedding of the image-content-analyzer repository.

Sources embedded:
  * src/unnamed/part_000        : the TTL cache (safeSetCache / safeGetCache).
  * src/unnamed/part_001        : skin detection (isSkinPixel, the sampling
                                  scan with early exit, and the verdict).
  * src/src/tesseractDetection.ts : text normalization, the keyword catalog,
                                  analyzeTextContent, analyzeImageText.
  * src/src/combinedImageAnalysis.ts : analyzeImageFast, analyzeImagesBatch.

Modelling conventions:
  * JavaScript numbers are embedded as exact rationals.  All numeric
    literals of the source (0.35, 0.8, 1.185, ...) are exact rationals, so
    every comparison in the model is the idealized comparison of the source
    formulas.  Math.round(x) is embedded as round x = floor (x + 1/2),
    which agrees with the JavaScript definition on all inputs.
  * Asynchronous collaborators (image decoding, OCR) are embedded as
    explicit outcome parameters: the orchestrator is a pure function of the
    collaborator outcomes, which is faithful because the source awaits each
    collaborator exactly once and uses only its resolved value.
  * The process-wide Map cache is embedded as an association list; the two
    key namespaces ("image-analysis:" and "batch-image-analysis:") are
    disjoint by construction, so the single untyped map of the source is
    split into one typed cache per namespace.
  * Strings are embedded as Lean strings / lists of characters; the model
    covers the ASCII fragment (the keyword catalog and all claim inputs are
    ASCII).
-/

namespace ImageContentAnalyzer

/-- JavaScript `Math.trunc` on rationals: truncation toward zero. -/
def ratTrunc (q : ℚ) : ℤ := if 0 ≤ q then ⌊q⌋ else ⌈q⌉

/-- JavaScript remainder `a % b` (sign of the dividend): a - b * trunc (a / b). -/
def jsRem (a b : ℚ) : ℚ := a - b * (ratTrunc (a / b) : ℚ)

/-- Rounding to two decimals, as the source writes `Math.round(x * 100) / 100`. -/
def round2 (q : ℚ) : ℚ := (round (q * 100) : ℚ) / 100

/-! ## TTL cache (src/unnamed/part_000)

The source stores `{ data, expiry }` in a `Map` keyed by strings, with
`expiry = Date.now() + ttlSeconds * 1000`.  Time is in milliseconds. -/

/-- One cache slot: key, stored data, expiry in epoch milliseconds. -/
def Cache (α : Type) : Type := List (String × α × ℕ)

/-- Lookup of the raw entry for a key (the `Map.get` of the source). -/
def findEntry {α : Type} : Cache α → String → Option (α × ℕ)
  | [], _ => none
  | (k, v, e) :: rest, key => if k = key then some (v, e) else findEntry rest key

/-- Removal of a key (the `Map.delete` of the source). -/
def eraseEntry {α : Type} : Cache α → String → Cache α
  | [], _ => []
  | (k, v, e) :: rest, key =>
      if k = key then rest else (k, v, e) :: eraseEntry rest key

/-- Overwrite-or-insert of a key (the `Map.set` of the source). -/
def setEntry {α : Type} : Cache α → String → α × ℕ → Cache α
  | [], key, ve => [(key, ve.1, ve.2)]
  | (k, v, e) :: rest, key, ve =>
      if k = key then (k, ve.1, ve.2) :: rest else (k, v, e) :: setEntry rest key ve

/-- safeSetCache of src/unnamed/part_000: store with expiry now + ttl * 1000. -/
def safeSetCache {α : Type} (c : Cache α) (key : String) (data : α)
    (ttlSeconds : ℕ) (now : ℕ) : Cache α :=
  setEntry c key (data, now + ttlSeconds * 1000)

/-- safeGetCache of src/unnamed/part_000: return the entry when present and
unexpired; delete an expired entry and return none.  The pair also carries
the possibly-updated cache. -/
def safeGetCache {α : Type} (c : Cache α) (key : String) (now : ℕ) :
    Option α × Cache α :=
  match findEntry c key with
  | none => (none, c)
  | some (v, e) => if e < now then (none, eraseEntry c key) else (some v, c)

/-! ## Skin detection (src/unnamed/part_001) -/

/-- Result record of analyzeImageForExplicitContent. -/
structure ImageAnalysisResult where
  isExplicit : Bool
  skinPercentage : ℚ
  confidence : ℚ
deriving DecidableEq

/-- The per-pixel skin test isSkinPixel of src/unnamed/part_001, on channel
values r, g, b.  The source returns false immediately when r + g + b = 0;
otherwise it ORs the three classifiers.  Divisions are Lean rational
divisions; the only division with a possibly-zero denominator reached here
is nr / ng when g = 0, and in that case both the JavaScript value (Infinity
or NaN) and the Lean value 0 make the normalized-RGB classifier false,
because its third conjunct r * g / sum^2 > 0.112 already fails. -/
def isSkinPixel (r g b : ℕ) : Bool :=
  let rgbClassifierV :=
    decide (95 < r) && decide (40 < g) && decide (g < 100) && decide (20 < b) &&
    decide (15 < max r (max g b) - min r (min g b)) &&
    decide (15 < max r g - min r g) && decide (g < r) && decide (b < r)
  let sum := r + g + b
  if sum = 0 then false
  else
    let nr : ℚ := (r : ℚ) / (sum : ℚ)
    let ng : ℚ := (g : ℚ) / (sum : ℚ)
    let normRgbClassifierV :=
      decide ((1.185 : ℚ) < nr / ng) &&
      decide ((0.107 : ℚ) < ((r : ℚ) * (b : ℚ)) / ((sum : ℚ) * (sum : ℚ))) &&
      decide ((0.112 : ℚ) < ((r : ℚ) * (g : ℚ)) / ((sum : ℚ) * (sum : ℚ)))
    let mx := max r (max g b)
    let mn := min r (min g b)
    let dif : ℚ := (mx : ℚ) - (mn : ℚ)
    let h0 : ℚ :=
      if dif ≠ 0 then
        if mx = r then jsRem (((g : ℚ) - (b : ℚ)) / dif) 6
        else if mx = g then ((b : ℚ) - (r : ℚ)) / dif + 2
        else ((r : ℚ) - (g : ℚ)) / dif + 4
      else 0
    let h1 := h0 * 60
    let h := if h1 < 0 then h1 + 360 else h1
    let s : ℚ := if mx = 0 then 0 else 1 - 3 * ((mn : ℚ) / (sum : ℚ))
    let hsvClassifierV :=
      decide (0 < h) && decide (h < 35) && decide ((0.23 : ℚ) < s) && decide (s < (0.68 : ℚ))
    rgbClassifierV || normRgbClassifierV || hsvClassifierV

/-- The RGB rule of the per-pixel test, stated on its own as in the spec:
r>95, 40<g<100, b>20, max-min>15, |r-g|>15, r>g, r>b. -/
def rgbClassifier (r g b : ℕ) : Bool :=
  decide (95 < r) && decide (40 < g) && decide (g < 100) && decide (20 < b) &&
  decide (15 < max r (max g b) - min r (min g b)) &&
  decide (15 < max r g - min r g) && decide (g < r) && decide (b < r)

/-- The normalized-RGB rule stated on its own; it is skipped (false) when
r + g + b = 0, as the spec says. -/
def normRgbClassifier (r g b : ℕ) : Bool :=
  let sum := r + g + b
  decide (sum ≠ 0) &&
  (decide ((1.185 : ℚ) < ((r : ℚ) / (sum : ℚ)) / ((g : ℚ) / (sum : ℚ))) &&
   decide ((0.107 : ℚ) < ((r : ℚ) * (b : ℚ)) / ((sum : ℚ) * (sum : ℚ))) &&
   decide ((0.112 : ℚ) < ((r : ℚ) * (g : ℚ)) / ((sum : ℚ) * (sum : ℚ))))

/-- The HSV rule stated on its own: fires when 0<h<35 and 0.23<s<0.68, with
h = 0 when max = min and s = 0 when the channel sum is zero. -/
def hsvClassifier (r g b : ℕ) : Bool :=
  let sum := r + g + b
  let mx := max r (max g b)
  let mn := min r (min g b)
  let dif : ℚ := (mx : ℚ) - (mn : ℚ)
  let h0 : ℚ :=
    if dif ≠ 0 then
      if mx = r then jsRem (((g : ℚ) - (b : ℚ)) / dif) 6
      else if mx = g then ((b : ℚ) - (r : ℚ)) / dif + 2
      else ((r : ℚ) - (g : ℚ)) / dif + 4
    else 0
  let h1 := h0 * 60
  let h := if h1 < 0 then h1 + 360 else h1
  let s : ℚ := if sum = 0 then 0 else 1 - 3 * ((mn : ℚ) / (sum : ℚ))
  decide (0 < h) && decide (h < 35) && decide ((0.23 : ℚ) < s) && decide (s < (0.68 : ℚ))

/-- Number of loop iterations of the sampling scan on a buffer of `len`
bytes with stride `step` bytes: the count of indices 0, step, 2*step, ...
below len, which is len / step rounded up (0 when step = 0, a degenerate
case the source never reaches since channels >= 3). -/
def numSamples (len step : ℕ) : ℕ := (len + step - 1) / step

/-- The pixels visited by the scan of analyzeImageForExplicitContent: the
source walks `i = 0, channels*8, 2*channels*8, ...` and reads data[i],
data[i+1], data[i+2].  An out-of-range JavaScript read yields undefined and
then NaN arithmetic, under which every classifier comparison is false; the
model reads 0 instead, which also makes the per-pixel test false on every
truncated pixel, so the two agree. -/
def sampledPixels (data : List ℕ) (channels : ℕ) : List (ℕ × ℕ × ℕ) :=
  (List.range (numSamples data.length (channels * 8))).map fun k =>
    (data.getD (k * (channels * 8)) 0,
     data.getD (k * (channels * 8) + 1) 0,
     data.getD (k * (channels * 8) + 2) 0)

/-- The scanning loop of analyzeImageForExplicitContent, one step per
sampled pixel: increment totalPixels, test skin-ness, record the (x, y) of
a skin pixel, and break once totalPixels > 100 and
skinPixels / totalPixels > 0.35.  Arguments after the pixel list: the
running byte index i, skinPixels, totalPixels, skinRegions.  Returns
(skinPixels, totalPixels, skinRegions). -/
def scanGo (channels width : ℕ) :
    List (ℕ × ℕ × ℕ) → ℕ → ℕ → ℕ → List (ℕ × ℕ) → ℕ × ℕ × List (ℕ × ℕ)
  | [], _, s, t, rs => (s, t, rs)
  | (r, g, b) :: rest, i, s, t, rs =>
      let t' := t + 1
      let isSkin := isSkinPixel r g b
      let s' := if isSkin then s + 1 else s
      let rs' := if isSkin then rs ++ [((i / channels) % width, (i / channels) / width)] else rs
      if 100 < t' ∧ (0.35 : ℚ) < (s' : ℚ) / (t' : ℚ) then (s', t', rs')
      else scanGo channels width rest (i + channels * 8) s' t' rs'

/-- The complete sampling scan of a raw buffer. -/
def scanBuffer (data : List ℕ) (width channels : ℕ) : ℕ × ℕ × List (ℕ × ℕ) :=
  scanGo channels width (sampledPixels data channels) 0 0 0 []

/-- The verdict computation of analyzeImageForExplicitContent (the part
after the scanning loop), from skinPixels, totalPixels and the recorded
skin-region coordinates.  Comparisons use the exact percentage; the
returned skinPercentage and confidence are rounded to two decimals. -/
def skinScanVerdict (skinPixels totalPixels : ℕ) (skinRegions : List (ℕ × ℕ)) :
    ImageAnalysisResult :=
  let skinPercentage : ℚ :=
    if 0 < totalPixels then ((skinPixels : ℚ) / (totalPixels : ℚ)) * 100 else 0
  let hasLargeSkinRegions := 30 < skinRegions.length ∧ 15 < skinPercentage
  let isExplicit :=
    decide (35 < skinPercentage) ||
    (decide (25 < skinPercentage) && decide hasLargeSkinRegions)
  let confidence0 : ℚ :=
    if 40 < skinPercentage then 0.9
    else if 30 < skinPercentage then 0.7
    else if 20 < skinPercentage then 0.5
    else 0.3
  let confidence1 := confidence0 + if hasLargeSkinRegions then 0.2 else 0
  let confidence := min confidence1 1
  { isExplicit := isExplicit
    skinPercentage := round2 skinPercentage
    confidence := round2 confidence }

/-- The successful path of analyzeImageForExplicitContent on a decoded
buffer: scan, then verdict. -/
def analyzeImagePixels (data : List ℕ) (width channels : ℕ) : ImageAnalysisResult :=
  let sc := scanBuffer data width channels
  skinScanVerdict sc.1 sc.2.1 sc.2.2

/-- The exact skin percentage skinPixels / totalPixels * 100 (0 when no
pixel was sampled), before any rounding. -/
def skinPercentageOf (skinPixels totalPixels : ℕ) : ℚ :=
  if 0 < totalPixels then ((skinPixels : ℚ) / (totalPixels : ℚ)) * 100 else 0

/-- The verdict as claim C2 words it, with the percentage rounded to two
decimals before every comparison and the confidence clamped to [0, 1].
Modelled from the claim wording, for comparison with skinScanVerdict. -/
def claimSkinVerdict (skinPixels totalPixels : ℕ) (skinRegions : List (ℕ × ℕ)) :
    ImageAnalysisResult :=
  let skinPercentage : ℚ :=
    round2 (if 0 < totalPixels then ((skinPixels : ℚ) / (totalPixels : ℚ)) * 100 else 0)
  let hasLargeSkinRegions := 30 < skinRegions.length ∧ 15 < skinPercentage
  let isExplicit :=
    decide (35 < skinPercentage) ||
    (decide (25 < skinPercentage) && decide hasLargeSkinRegions)
  let confidence0 : ℚ :=
    if 40 < skinPercentage then 0.9
    else if 30 < skinPercentage then 0.7
    else if 20 < skinPercentage then 0.5
    else 0.3
  let confidence1 := confidence0 + if hasLargeSkinRegions then 0.2 else 0
  let confidence := max 0 (min confidence1 1)
  { isExplicit := isExplicit
    skinPercentage := skinPercentage
    confidence := round2 confidence }

/-! ## Text detection (src/src/tesseractDetection.ts) -/

/-- Result record of analyzeImageText. -/
structure TextAnalysisResult where
  hasExplicitText : Bool
  confidence : ℚ
  detectedWords : List String
  categories : List String
  extractedText : String
deriving DecidableEq

/-- The all-empty/zero TextAnalysisResult used on empty text, OCR failure,
timeout, and the skin short-circuit. -/
def emptyTextAnalysis : TextAnalysisResult :=
  { hasExplicitText := false
    confidence := 0
    detectedWords := []
    categories := []
    extractedText := "" }

/-- The whitespace class of the regexes and of trim (ASCII fragment). -/
def isWsChar (c : Char) : Bool :=
  c = ' ' || c = '\t' || c = '\n' || c = '\r' || c = '\x0b' || c = '\x0c'

/-- The word-character class of regex backslash-w: letters, digits, underscore. -/
def isWordCharJs (c : Char) : Bool := c.isAlphanum || c = '_'

/-- Collapsing of whitespace runs to single spaces, as the source writes
`.replace(/\s+/g, ' ')`.  The Boolean argument records whether the previous
character belonged to a whitespace run. -/
def collapseWsGo : Bool → List Char → List Char
  | _, [] => []
  | prevWs, c :: cs =>
      if isWsChar c then
        if prevWs then collapseWsGo true cs else ' ' :: collapseWsGo true cs
      else c :: collapseWsGo false cs

/-- JavaScript String.prototype.trim on a character list (ASCII fragment). -/
def jsTrim (l : List Char) : List Char :=
  ((l.dropWhile isWsChar).reverse.dropWhile isWsChar).reverse

/-- normalizeText of src/src/tesseractDetection.ts: lower-case, replace every
character outside word/whitespace classes by a space, collapse whitespace,
trim. -/
def normalizeText (l : List Char) : List Char :=
  jsTrim (collapseWsGo false
    ((l.map Char.toLower).map fun c => if isWordCharJs c || isWsChar c then c else ' '))

/-- EXPLICIT_KEYWORDS of src/src/tesseractDetection.ts, in source order. -/
def EXPLICIT_KEYWORDS : List (String × List String) :=
  [("nudity",
    ["nude", "naked", "undressed", "topless", "bottomless", "bare",
     "exposed", "revealing", "strip", "bikini", "underwear", "lingerie"]),
   ("sexual",
    ["sex", "sexual", "porn", "xxx", "adult", "erotic", "intimate",
     "orgasm", "masturbate", "horny", "sexy", "seduce", "arousal",
     "pleasure", "kinky", "fetish", "bdsm", "escort", "hookup"]),
   ("pornography",
    ["pornography", "pornographic", "porn", "xxx", "adult film",
     "sex tape", "webcam", "camgirl", "onlyfans", "premium content",
     "adult content", "nsfw", "explicit", "mature content"]),
   ("violence",
    ["violence", "violent", "fight", "attack", "assault", "abuse",
     "hit", "punch", "kick", "slap", "beat", "torture", "harm",
     "hurt", "wound", "injure", "threat", "weapon", "gun", "knife"]),
   ("gore",
    ["gore", "blood", "bleeding", "wound", "injury", "death", "dead",
     "corpse", "murder", "kill", "suicide", "mutilation", "dismember",
     "brutal", "savage", "graphic", "disturbing", "gruesome"])]

/-- Occurrence of `kw` at position `i` of `text`. -/
def substrAt (kw text : List Char) (i : ℕ) : Bool :=
  decide ((text.drop i).take kw.length = kw)

/-- JavaScript String.prototype.includes: some occurrence of `kw` in `text`. -/
def includesSub (kw text : List Char) : Bool :=
  (List.range (text.length + 1)).any fun i => substrAt kw text i

/-- Whether position `i` of `text` holds a word character (out-of-range
positions count as non-word, as at the edges of a regex subject). -/
def wordCharAt (text : List Char) (i : ℕ) : Bool :=
  isWordCharJs (text.getD i ' ')

/-- The regex word-boundary test at position `i`: the wordness of the
character before `i` differs from the wordness of the character at `i`. -/
def boundaryAt (text : List Char) (i : ℕ) : Bool :=
  (if i = 0 then false else wordCharAt text (i - 1)) != wordCharAt text i

/-- Match of the anchored pattern (word boundary, kw, word boundary) at
position `i`. -/
def wbMatchAt (kw text : List Char) (i : ℕ) : Bool :=
  substrAt kw text i && boundaryAt text i && boundaryAt text (i + kw.length)

/-- The regex test of the source: `\b kw \b` matches somewhere in `text`.
Every catalog keyword consists of lower-case letters and spaces, so the
escaping replace of the source is the identity, and the case-insensitive
flag is moot on the lower-cased subject. -/
def regexWbTest (kw text : List Char) : Bool :=
  (List.range (text.length + 1)).any fun i => wbMatchAt kw text i

/-- One keyword test of analyzeTextContent: word-boundary regex match OR raw
substring containment on the normalized text. -/
def kwHit (kw : String) (ntext : List Char) : Bool :=
  regexWbTest kw.data ntext || includesSub kw.data ntext

/-- JavaScript Set insertion order semantics: append when absent. -/
def insertIfAbsent (l : List String) (x : String) : List String :=
  if x ∈ l then l else l ++ [x]

/-- Deduplication keeping first occurrences, as `[...new Set(list)]`. -/
def dedupFirstGo (seen : List String) : List String → List String
  | [] => []
  | x :: xs => if x ∈ seen then dedupFirstGo seen xs else x :: dedupFirstGo (x :: seen) xs

/-- Deduplication keeping first occurrences, as `[...new Set(list)]`. -/
def dedupFirst (l : List String) : List String := dedupFirstGo [] l

/-- Mutable accumulator of the keyword loop of analyzeTextContent. -/
structure TextScanAcc where
  detectedWords : List String
  categories : List String
  totalMatches : ℕ
deriving DecidableEq

/-- The nested forEach of analyzeTextContent over the keyword catalog: on a
hit, push the keyword, add the category to the set, and count the match. -/
def scanCategories (ntext : List Char) : TextScanAcc :=
  EXPLICIT_KEYWORDS.foldl
    (fun acc p =>
      p.2.foldl
        (fun acc kw =>
          if kwHit kw ntext then
            { detectedWords := acc.detectedWords ++ [kw]
              categories := insertIfAbsent acc.categories p.1
              totalMatches := acc.totalMatches + 1 }
          else acc)
        acc)
    { detectedWords := [], categories := [], totalMatches := 0 }

/-- Return record of analyzeTextContent. -/
structure TextContentAnalysis where
  detectedWords : List String
  categories : List String
  confidence : ℚ
deriving DecidableEq

/-- analyzeTextContent of src/src/tesseractDetection.ts.  The source also
splits the normalized text into words, but never uses that list. -/
def analyzeTextContent (text : List Char) : TextContentAnalysis :=
  let ntext := normalizeText text
  let acc := scanCategories ntext
  { detectedWords := dedupFirst acc.detectedWords
    categories := acc.categories
    confidence := min ((acc.totalMatches : ℚ) * 0.3) 1 }

/-- The successful-OCR path of analyzeImageText, as a function of the raw
text recognized by the OCR collaborator: trim, return the empty result on
empty text, otherwise classify and compute hasExplicitText. -/
def analyzeImageTextOk (rawText : String) : TextAnalysisResult :=
  let extractedText := jsTrim rawText.data
  if extractedText = [] then emptyTextAnalysis
  else
    let analysis := analyzeTextContent extractedText
    { hasExplicitText :=
        decide (0 < analysis.detectedWords.length) && decide ((0.3 : ℚ) < analysis.confidence)
      confidence := analysis.confidence
      detectedWords := analysis.detectedWords
      categories := analysis.categories
      extractedText := String.mk extractedText }

/-- Outcome of the OCR collaborator as seen by analyzeImageText: recognized
text, or any caught fault (the catch branch of the source). -/
inductive OcrRaw where
  | text (s : String)
  | err
deriving DecidableEq

/-- analyzeImageText of src/src/tesseractDetection.ts, as a function of the
OCR collaborator outcome. -/
def analyzeImageText : OcrRaw → TextAnalysisResult
  | .text s => analyzeImageTextOk s
  | .err => emptyTextAnalysis

/-- The category/keyword pairs of the catalog, flattened in source order. -/
def catalogPairs : List (String × String) :=
  (EXPLICIT_KEYWORDS.map fun p => p.2.map fun kw => (p.1, kw)).flatten

/-- The total match count as the spec words it: one hit for every
(category, keyword) pair whose keyword matches the normalized text. -/
def totalKeywordMatches (ntext : List Char) : ℕ :=
  catalogPairs.countP fun p => kwHit p.2 ntext

/-! ## Orchestration (src/src/combinedImageAnalysis.ts)

The orchestrators await each collaborator once; the model takes the
collaborator outcomes as parameters.  A cache value stored by the source is
a plain object, hence always truthy, so the truthiness test of the source
on a cache hit is exactly the option test of the model. -/

/-- Per-image result record (ImageAnalysisDetail of src/unnamed/part_001).
The source marks textAnalysis optional, but every detail it constructs
carries one, so the model makes the field total. -/
structure ImageAnalysisDetail where
  url : String
  isExplicit : Bool
  skinPercentage : ℚ
  confidence : ℚ
  textAnalysis : TextAnalysisResult
deriving DecidableEq

/-- Batch result record (ExplicitContentAnalysis of src/unnamed/part_001). -/
structure ExplicitContentAnalysis where
  hasExplicitContent : Bool
  confidence : ℚ
  details : List ImageAnalysisDetail
  hasExplicitText : Bool
  textConfidence : ℚ
  detectedCategories : List String
deriving DecidableEq

/-- Outcome of the 3000 ms race between analyzeImageText and the timeout
timer: the text analysis when it wins, failed on timeout or rejection (the
catch branch substitutes the empty analysis). -/
inductive OcrOutcome where
  | ok (t : TextAnalysisResult)
  | failed
deriving DecidableEq

/-- The text analysis that the combination step of analyzeImageFast sees. -/
def ocrText : OcrOutcome → TextAnalysisResult
  | .ok t => t
  | .failed => emptyTextAnalysis

/-- Outcome of the try block of analyzeImageFast: the resolved skin analysis
together with the OCR race outcome, or an uncaught fault anywhere in the
analysis steps (the outer catch branch). -/
inductive FastOutcome where
  | runs (skin : ImageAnalysisResult) (ocr : OcrOutcome)
  | fault
deriving DecidableEq

/-- The per-image cache key of analyzeImageFast. -/
def imageCacheKey (url : String) : String := "image-analysis:" ++ url

/-- analyzeImageFast of src/src/combinedImageAnalysis.ts: cache lookup,
skin detection, short-circuit on a confident explicit skin verdict, OCR
bounded by the timeout race, combination, caching (300 s on every analyzed
result, 60 s on the fault branch).  Returns the detail and the updated
cache. -/
def analyzeImageFast (c : Cache ImageAnalysisDetail) (now : ℕ) (url : String)
    (outcome : FastOutcome) : ImageAnalysisDetail × Cache ImageAnalysisDetail :=
  let cacheKey := imageCacheKey url
  let hit := safeGetCache c cacheKey now
  match hit.1 with
  | some r => (r, hit.2)
  | none =>
    match outcome with
    | .fault =>
        let result : ImageAnalysisDetail :=
          { url := url, isExplicit := false, skinPercentage := 0, confidence := 0
            textAnalysis := emptyTextAnalysis }
        (result, safeSetCache hit.2 cacheKey result 60 now)
    | .runs skin ocr =>
        if skin.isExplicit = true ∧ (0.7 : ℚ) < skin.confidence then
          let result : ImageAnalysisDetail :=
            { url := url, isExplicit := true, skinPercentage := skin.skinPercentage
              confidence := skin.confidence, textAnalysis := emptyTextAnalysis }
          (result, safeSetCache hit.2 cacheKey result 300 now)
        else
          let textAnalysis := ocrText ocr
          let combinedConfidence := max skin.confidence (textAnalysis.confidence * 0.8)
          let isExplicit :=
            skin.isExplicit ||
            (textAnalysis.hasExplicitText && decide ((0.4 : ℚ) < textAnalysis.confidence))
          let result : ImageAnalysisDetail :=
            { url := url, isExplicit := isExplicit, skinPercentage := skin.skinPercentage
              confidence := combinedConfidence, textAnalysis := textAnalysis }
          (result, safeSetCache hit.2 cacheKey result 300 now)

/-- The batch cache key of analyzeImagesBatch: comma-join of the URL list. -/
def batchCacheKey (imageUrls : List String) : String :=
  "batch-image-analysis:" ++ String.intercalate "," imageUrls

/-- The chunked loop of analyzeImagesBatch: slices of 2 URLs, each slice
analyzed by Promise.all (whose result list preserves slice order), the
slice results appended in order.  The per-URL analysis is abstracted as the
assignment f. -/
def processChunks (f : String → ImageAnalysisDetail) :
    List String → List ImageAnalysisDetail
  | [] => []
  | [u] => [f u]
  | u1 :: u2 :: rest => f u1 :: f u2 :: processChunks f rest

/-- JavaScript `Math.max(...list)` guarded by the emptiness checks of the
source: 0 for the empty list, otherwise the maximum. -/
def listMaxD : List ℚ → ℚ
  | [] => 0
  | c :: cs => cs.foldl max c

/-- The result-processing block of analyzeImagesBatch (everything after the
chunked loop), from the ordered per-URL results. -/
def aggregateBatch (results : List ImageAnalysisDetail) : ExplicitContentAnalysis :=
  let explicitImages := results.filter fun a => a.isExplicit
  let imagesWithExplicitText := results.filter fun a =>
    a.textAnalysis.hasExplicitText && decide ((0.3 : ℚ) < a.textAnalysis.confidence)
  let allCategories := dedupFirst (results.map fun a => a.textAnalysis.categories).flatten
  let hasExplicitContent := decide (0 < explicitImages.length)
  let hasExplicitText := decide (0 < imagesWithExplicitText.length)
  let overallConfidence := listMaxD (explicitImages.map fun img => img.confidence)
  let textConfidence :=
    listMaxD (imagesWithExplicitText.map fun img => img.textAnalysis.confidence)
  { hasExplicitContent := hasExplicitContent || hasExplicitText
    confidence := max overallConfidence textConfidence
    details := results
    hasExplicitText := hasExplicitText
    textConfidence := textConfidence
    detectedCategories := allCategories }

/-- analyzeImagesBatch of src/src/combinedImageAnalysis.ts, as a function of
the batch cache and of the per-URL analysis assignment f: batch cache
lookup, chunked analysis, aggregation, caching for 300 s. -/
def analyzeImagesBatch (bc : Cache ExplicitContentAnalysis) (now : ℕ)
    (imageUrls : List String) (f : String → ImageAnalysisDetail) :
    ExplicitContentAnalysis × Cache ExplicitContentAnalysis :=
  let key := batchCacheKey imageUrls
  let hit := safeGetCache bc key now
  match hit.1 with
  | some r => (r, hit.2)
  | none =>
    let batchResult := aggregateBatch (processChunks f imageUrls)
    (batchResult, safeSetCache hit.2 key batchResult 300 now)

/-! ## Concrete inputs used by witnesses and counterexamples -/

/-- A skin-heavy raw buffer: 101 pixel blocks of 8 RGB pixels whose first
pixel is (200, 60, 30); sampling every 8th pixel reads exactly those. -/
def c7buf : List ℕ := (List.replicate 101 ([200, 60, 30] ++ List.replicate 21 0)).flatten

/-- A completed scan of 861 black samples followed by 152 skin samples:
skinPixels = 152 and totalPixels = 1013 put the exact percentage in
(15, 15.005), where rounding before comparison changes the verdict. -/
def cexSamples : List (ℕ × ℕ × ℕ) :=
  List.replicate 861 (0, 0, 0) ++ List.replicate 152 (200, 60, 30)

/-- A fixed per-URL analysis assignment used by the batch counterexample. -/
def plainDetail (u : String) : ImageAnalysisDetail :=
  { url := u, isExplicit := false, skinPercentage := 0, confidence := 0
    textAnalysis := emptyTextAnalysis }

/-- A fixed explicit per-URL analysis assignment used by the batch witness. -/
def explicitDetail (u : String) : ImageAnalysisDetail :=
  { url := u, isExplicit := true, skinPercentage := 50, confidence := 9/10
    textAnalysis :=
      { hasExplicitText := true, confidence := 9/10, detectedWords := ["nude"]
        categories := ["nudity"], extractedText := "nude" } }

/-! ## Cache lemmas -/

theorem findEntry_setEntry_self {α : Type} (c : Cache α) (key : String) (ve : α × ℕ) :
    findEntry (setEntry c key ve) key = some ve := by
  induction c with
  | nil => simp [setEntry, findEntry]
  | cons kv rest ih =>
      obtain ⟨k, v, e⟩ := kv
      by_cases hk : k = key
      · simp [setEntry, findEntry, hk]
      · simp [setEntry, findEntry, hk, ih]

theorem safeGetCache_set_live {α : Type} (c : Cache α) (key : String) (v : α)
    (ttl now t : ℕ) (ht : t ≤ now + ttl * 1000) :
    (safeGetCache (safeSetCache c key v ttl now) key t).1 = some v := by
  simp only [safeGetCache, safeSetCache, findEntry_setEntry_self]
  rw [if_neg (by omega)]

theorem safeGetCache_set_dead {α : Type} (c : Cache α) (key : String) (v : α)
    (ttl now t : ℕ) (ht : now + ttl * 1000 < t) :
    (safeGetCache (safeSetCache c key v ttl now) key t).1 = none := by
  simp only [safeGetCache, safeSetCache, findEntry_setEntry_self]
  rw [if_pos (by omega)]

/-! ## Claims C1, C6, C9: the single-image orchestrator -/

/-- C1.  On a cache miss with the skin short-circuit not firing,
analyzeImageFast combines skin and (possibly degraded) text analysis as
confidence = max(skinConfidence, textConfidence * 0.8) and isExplicit =
skinIsExplicit or (textHasExplicit and textConfidence > 0.4), and the
composed result is cached for 300 seconds (present at now + 300000 ms,
gone at now + 300001 ms). -/
theorem C1_fast_combination (c : Cache ImageAnalysisDetail) (now : ℕ) (url : String)
    (skin : ImageAnalysisResult) (ocr : OcrOutcome)
    (hmiss : (safeGetCache c (imageCacheKey url) now).1 = none)
    (hns : ¬(skin.isExplicit = true ∧ (0.7 : ℚ) < skin.confidence)) :
    ((analyzeImageFast c now url (.runs skin ocr)).1.confidence
        = max skin.confidence ((ocrText ocr).confidence * 0.8))
    ∧ ((analyzeImageFast c now url (.runs skin ocr)).1.isExplicit
        = (skin.isExplicit ||
           ((ocrText ocr).hasExplicitText && decide ((0.4 : ℚ) < (ocrText ocr).confidence))))
    ∧ ((analyzeImageFast c now url (.runs skin ocr)).1.textAnalysis = ocrText ocr)
    ∧ ((analyzeImageFast c now url (.runs skin ocr)).1.skinPercentage = skin.skinPercentage)
    ∧ ((safeGetCache (analyzeImageFast c now url (.runs skin ocr)).2 (imageCacheKey url)
          (now + 300 * 1000)).1 = some (analyzeImageFast c now url (.runs skin ocr)).1)
    ∧ ((safeGetCache (analyzeImageFast c now url (.runs skin ocr)).2 (imageCacheKey url)
          (now + 300 * 1000 + 1)).1 = none) := by
  simp only [analyzeImageFast]
  rw [hmiss]
  simp only [if_neg hns]
  refine ⟨trivial, trivial, trivial, trivial, ?_, ?_⟩
  · exact safeGetCache_set_live _ _ _ _ _ _ (by omega)
  · exact safeGetCache_set_dead _ _ _ _ _ _ (by omega)

/-- Witness for C1 at a concrete input: empty cache, a non-explicit skin
result, and a successful OCR outcome. -/
theorem C1_fast_combination_witness :
    ((safeGetCache ([] : Cache ImageAnalysisDetail) (imageCacheKey "u") 0).1 = none)
    ∧ ¬((⟨false, 10, 1/2⟩ : ImageAnalysisResult).isExplicit = true
          ∧ (0.7 : ℚ) < (⟨false, 10, 1/2⟩ : ImageAnalysisResult).confidence)
    ∧ (((analyzeImageFast [] 0 "u"
          (.runs ⟨false, 10, 1/2⟩ (.ok ⟨true, 1/2, ["nude"], ["nudity"], "nude"⟩))).1.confidence
        = max (1/2 : ℚ) ((1/2 : ℚ) * 0.8))
       ∧ ((safeGetCache (analyzeImageFast [] 0 "u"
            (.runs ⟨false, 10, 1/2⟩ (.ok ⟨true, 1/2, ["nude"], ["nudity"], "nude"⟩))).2
            (imageCacheKey "u") (0 + 300 * 1000)).1
          = some (analyzeImageFast [] 0 "u"
            (.runs ⟨false, 10, 1/2⟩ (.ok ⟨true, 1/2, ["nude"], ["nudity"], "nude"⟩))).1)) := by
  have h1 : (safeGetCache ([] : Cache ImageAnalysisDetail) (imageCacheKey "u") 0).1 = none := rfl
  have h2 : ¬((⟨false, 10, 1/2⟩ : ImageAnalysisResult).isExplicit = true
      ∧ (0.7 : ℚ) < (⟨false, 10, 1/2⟩ : ImageAnalysisResult).confidence) := by
    rintro ⟨h, -⟩; exact Bool.false_ne_true h
  obtain ⟨hc, -, -, -, hlive, -⟩ :=
    C1_fast_combination [] 0 "u" ⟨false, 10, 1/2⟩
      (.ok ⟨true, 1/2, ["nude"], ["nudity"], "nude"⟩) h1 h2
  exact ⟨h1, h2, hc, hlive⟩

/-- C6.  When the skin verdict is explicit with confidence above 0.7,
analyzeImageFast is independent of the OCR outcome, its textAnalysis is
the all-empty/zero value, and the result is cached for 300 seconds. -/
theorem C6_fast_short_circuit (c : Cache ImageAnalysisDetail) (now : ℕ) (url : String)
    (skin : ImageAnalysisResult)
    (hmiss : (safeGetCache c (imageCacheKey url) now).1 = none)
    (hx : skin.isExplicit = true) (hc : (0.7 : ℚ) < skin.confidence) :
    (∀ ocr ocr' : OcrOutcome,
        analyzeImageFast c now url (.runs skin ocr)
          = analyzeImageFast c now url (.runs skin ocr'))
    ∧ ((analyzeImageFast c now url (.runs skin .failed)).1.textAnalysis = emptyTextAnalysis)
    ∧ ((analyzeImageFast c now url (.runs skin .failed)).1
        = ⟨url, true, skin.skinPercentage, skin.confidence, emptyTextAnalysis⟩)
    ∧ ((safeGetCache (analyzeImageFast c now url (.runs skin .failed)).2 (imageCacheKey url)
          (now + 300 * 1000)).1 = some (analyzeImageFast c now url (.runs skin .failed)).1)
    ∧ ((safeGetCache (analyzeImageFast c now url (.runs skin .failed)).2 (imageCacheKey url)
          (now + 300 * 1000 + 1)).1 = none) := by
  have hsc : ∀ ocr : OcrOutcome,
      analyzeImageFast c now url (.runs skin ocr)
        = (⟨url, true, skin.skinPercentage, skin.confidence, emptyTextAnalysis⟩,
           safeSetCache (safeGetCache c (imageCacheKey url) now).2 (imageCacheKey url)
             ⟨url, true, skin.skinPercentage, skin.confidence, emptyTextAnalysis⟩ 300 now) := by
    intro ocr
    simp only [analyzeImageFast]
    rw [hmiss]
    simp only [if_pos (And.intro hx hc)]
  refine ⟨fun ocr ocr' => (hsc ocr).trans (hsc ocr').symm, ?_, ?_, ?_, ?_⟩
  · rw [hsc]
  · rw [hsc]
  · rw [hsc]
    exact safeGetCache_set_live _ _ _ _ _ _ (by omega)
  · rw [hsc]
    exact safeGetCache_set_dead _ _ _ _ _ _ (by omega)

/-- Witness for C6 at a concrete input: empty cache and an explicit skin
result of confidence 1. -/
theorem C6_fast_short_circuit_witness :
    ((safeGetCache ([] : Cache ImageAnalysisDetail) (imageCacheKey "u") 0).1 = none)
    ∧ ((⟨true, 50, 1⟩ : ImageAnalysisResult).isExplicit = true)
    ∧ ((0.7 : ℚ) < (⟨true, 50, 1⟩ : ImageAnalysisResult).confidence)
    ∧ (analyzeImageFast [] 0 "u" (.runs ⟨true, 50, 1⟩ (.ok ⟨true, 1, ["x"], ["gore"], "x"⟩))
        = analyzeImageFast [] 0 "u" (.runs ⟨true, 50, 1⟩ .failed))
    ∧ ((analyzeImageFast [] 0 "u" (.runs ⟨true, 50, 1⟩ .failed)).1.textAnalysis
        = emptyTextAnalysis) := by
  have h1 : (safeGetCache ([] : Cache ImageAnalysisDetail) (imageCacheKey "u") 0).1 = none := rfl
  have h2 : (⟨true, 50, 1⟩ : ImageAnalysisResult).isExplicit = true := rfl
  have h3 : (0.7 : ℚ) < (⟨true, 50, 1⟩ : ImageAnalysisResult).confidence := by norm_num
  obtain ⟨hiden, htext, -, -, -⟩ := C6_fast_short_circuit [] 0 "u" ⟨true, 50, 1⟩ h1 h2 h3
  exact ⟨h1, h2, h3, hiden _ _, htext⟩

/-- C9.  On an uncaught fault in the analysis steps, analyzeImageFast still
returns (the model is a total function): it yields the fully zeroed/false
detail for the URL and caches it for 60 seconds (present at now + 60000 ms,
gone at now + 60001 ms), whereas any successful analysis outcome is still
cached at now + 60001 ms, since its TTL is 300 seconds. -/
theorem C9_fast_fault_degraded (c : Cache ImageAnalysisDetail) (now : ℕ) (url : String)
    (hmiss : (safeGetCache c (imageCacheKey url) now).1 = none) :
    ((analyzeImageFast c now url .fault).1
        = ⟨url, false, 0, 0, emptyTextAnalysis⟩)
    ∧ ((safeGetCache (analyzeImageFast c now url .fault).2 (imageCacheKey url)
          (now + 60 * 1000)).1 = some (analyzeImageFast c now url .fault).1)
    ∧ ((safeGetCache (analyzeImageFast c now url .fault).2 (imageCacheKey url)
          (now + 60 * 1000 + 1)).1 = none)
    ∧ (∀ (skin : ImageAnalysisResult) (ocr : OcrOutcome),
        (safeGetCache (analyzeImageFast c now url (.runs skin ocr)).2 (imageCacheKey url)
          (now + 60 * 1000 + 1)).1
          = some (analyzeImageFast c now url (.runs skin ocr)).1) := by
  have hf : analyzeImageFast c now url .fault
      = (⟨url, false, 0, 0, emptyTextAnalysis⟩,
         safeSetCache (safeGetCache c (imageCacheKey url) now).2 (imageCacheKey url)
           ⟨url, false, 0, 0, emptyTextAnalysis⟩ 60 now) := by
    simp only [analyzeImageFast]
    rw [hmiss]
  refine ⟨by rw [hf], ?_, ?_, ?_⟩
  · rw [hf]
    exact safeGetCache_set_live _ _ _ _ _ _ (by omega)
  · rw [hf]
    exact safeGetCache_set_dead _ _ _ _ _ _ (by omega)
  · intro skin ocr
    simp only [analyzeImageFast]
    rw [hmiss]
    by_cases hsc : skin.isExplicit = true ∧ (0.7 : ℚ) < skin.confidence
    · simp only [if_pos hsc]
      exact safeGetCache_set_live _ _ _ _ _ _ (by omega)
    · simp only [if_neg hsc]
      exact safeGetCache_set_live _ _ _ _ _ _ (by omega)

/-- Witness for C9 at a concrete input: empty cache, a fault outcome. -/
theorem C9_fast_fault_degraded_witness :
    ((safeGetCache ([] : Cache ImageAnalysisDetail) (imageCacheKey "u") 0).1 = none)
    ∧ ((analyzeImageFast [] 0 "u" .fault).1 = ⟨"u", false, 0, 0, emptyTextAnalysis⟩)
    ∧ ((safeGetCache (analyzeImageFast [] 0 "u" .fault).2 (imageCacheKey "u")
          (0 + 60 * 1000 + 1)).1 = none) := by
  have h1 : (safeGetCache ([] : Cache ImageAnalysisDetail) (imageCacheKey "u") 0).1 = none := rfl
  obtain ⟨hz, -, hdead, -⟩ := C9_fast_fault_degraded [] 0 "u" h1
  exact ⟨h1, hz, hdead⟩

/-! ## Claim C3: the per-pixel test is the OR of the three classifiers -/

/-- C3.  For every pixel, isSkinPixel returns true exactly when at least one
of the three independent classifiers fires: the RGB rule, the
normalized-RGB rule (skipped when r + g + b = 0), or the HSV rule. -/
theorem C3_skin_pixel_or (r g b : ℕ) :
    isSkinPixel r g b
      = (rgbClassifier r g b || normRgbClassifier r g b || hsvClassifier r g b) := by
  by_cases hs : r + g + b = 0
  · obtain ⟨hr, hg, hb⟩ : r = 0 ∧ g = 0 ∧ b = 0 := by omega
    subst hr; subst hg; subst hb
    norm_num [isSkinPixel, rgbClassifier, normRgbClassifier, hsvClassifier]
  · have hmx : ¬(max r (max g b) = 0) := by
      simp only [Nat.max_eq_zero_iff]
      omega
    simp only [isSkinPixel, rgbClassifier, normRgbClassifier, hsvClassifier]
    rw [if_neg hs]
    rw [if_neg hmx, if_neg hs, decide_eq_true hs, Bool.true_and]

/-! ## Scan lemmas -/

theorem isSkinPixel_black : isSkinPixel 0 0 0 = false := rfl

theorem isSkinPixel_skin : isSkinPixel 200 60 30 = true := rfl

theorem ratio_le_seven_twentieth (a b : ℕ) (hb : 0 < b) :
    ((a : ℚ) / (b : ℚ) ≤ 7 / 20) ↔ 20 * a ≤ 7 * b := by
  have hb' : (0 : ℚ) < (b : ℚ) := by exact_mod_cast hb
  rw [div_le_div_iff₀ hb' (by norm_num)]
  constructor
  · intro h
    have h3 : ((20 * a : ℕ) : ℚ) ≤ ((7 * b : ℕ) : ℚ) := by push_cast; linarith
    exact_mod_cast h3
  · intro h
    have h3 : ((20 * a : ℕ) : ℚ) ≤ ((7 * b : ℕ) : ℚ) := by exact_mod_cast h
    push_cast at h3
    linarith

/-- Scanning a run of black samples changes only totalPixels and the byte
index: no sample is skin and the early exit never fires since
skinPixels = 0. -/
theorem scanGo_zerorun (ch w : ℕ) (k : ℕ) :
    ∀ (rest : List (ℕ × ℕ × ℕ)) (i t : ℕ) (rs : List (ℕ × ℕ)),
    scanGo ch w (List.replicate k (0, 0, 0) ++ rest) i 0 t rs
      = scanGo ch w rest (i + k * (ch * 8)) 0 (t + k) rs := by
  induction k with
  | zero => intro rest i t rs; simp
  | succ k ih =>
      intro rest i t rs
      rw [List.replicate_succ, List.cons_append]
      simp only [scanGo, isSkinPixel_black, Bool.false_eq_true, if_false]
      rw [if_neg (by
        rintro ⟨-, h⟩
        rw [Nat.cast_zero, zero_div] at h
        norm_num at h)]
      rw [ih rest (i + ch * 8) (t + 1) rs,
        show i + ch * 8 + k * (ch * 8) = i + (k + 1) * (ch * 8) from by ring,
        show t + 1 + k = t + (k + 1) from by omega]

/-- Scanning a run of skin samples (200, 60, 30) increments skinPixels,
totalPixels and the recorded-region count together, provided the final
ratio stays at or below 7/20 so the early exit never fires during the
run. -/
theorem scanGo_skinrun (ch w : ℕ) (k : ℕ) :
    ∀ (i s t : ℕ) (rs : List (ℕ × ℕ)),
    20 * (s + k) ≤ 7 * (t + k) →
    (scanGo ch w (List.replicate k (200, 60, 30)) i s t rs).1 = s + k
    ∧ (scanGo ch w (List.replicate k (200, 60, 30)) i s t rs).2.1 = t + k
    ∧ (scanGo ch w (List.replicate k (200, 60, 30)) i s t rs).2.2.length
        = rs.length + k := by
  induction k with
  | zero => intro i s t rs h; simp [scanGo]
  | succ k ih =>
      intro i s t rs h
      rw [List.replicate_succ]
      simp only [scanGo, isSkinPixel_skin, if_true]
      rw [if_neg (by
        rintro ⟨-, hrat⟩
        have hle : ((s + 1 : ℕ) : ℚ) / ((t + 1 : ℕ) : ℚ) ≤ 7 / 20 :=
          (ratio_le_seven_twentieth (s + 1) (t + 1) (by omega)).mpr (by omega)
        rw [show (0.35 : ℚ) = 7 / 20 from by norm_num] at hrat
        exact absurd hrat (not_lt.mpr hle))]
      obtain ⟨h1, h2, h3⟩ := ih (i + ch * 8) (s + 1) (t + 1) (rs ++ [((i / ch) % w, (i / ch) / w)])
        (by omega)
      refine ⟨?_, ?_, ?_⟩
      · rw [h1]; omega
      · rw [h2]; omega
      · rw [h3]; simp; omega

/-! ## Claim C2: the verdict formulas, and where rounding happens -/

/-- C2 (amended).  The verdict computed from a completed scan uses the
exact, unrounded percentage in every comparison: isExplicit =
pct>35 or (pct>25 and hasLargeSkinRegions) with hasLargeSkinRegions =
(recorded coordinates > 30 and pct > 15); the confidence is the tier value
plus the 0.2 bonus, clamped to [0, 1], rounded to 2 decimals; the returned
skinPercentage is the rounded percentage.  The claim as frozen rounds the
percentage before the comparisons, a reading the counterexample refutes. -/
theorem C2_skin_verdict_amended (s t : ℕ) (rs : List (ℕ × ℕ)) :
    ((skinScanVerdict s t rs).isExplicit
        = (decide (35 < skinPercentageOf s t)
           || (decide (25 < skinPercentageOf s t)
               && decide (30 < rs.length ∧ 15 < skinPercentageOf s t))))
    ∧ ((skinScanVerdict s t rs).skinPercentage = round2 (skinPercentageOf s t))
    ∧ ((skinScanVerdict s t rs).confidence
        = round2 (max 0 (min
            ((if 40 < skinPercentageOf s t then (0.9 : ℚ)
              else if 30 < skinPercentageOf s t then 0.7
              else if 20 < skinPercentageOf s t then 0.5
              else 0.3)
             + (if 30 < rs.length ∧ 15 < skinPercentageOf s t then (0.2 : ℚ) else 0)) 1))) := by
  refine ⟨rfl, rfl, ?_⟩
  have hX : (0 : ℚ) ≤ min
      ((if 40 < skinPercentageOf s t then (0.9 : ℚ)
        else if 30 < skinPercentageOf s t then 0.7
        else if 20 < skinPercentageOf s t then 0.5
        else 0.3)
       + (if 30 < rs.length ∧ 15 < skinPercentageOf s t then (0.2 : ℚ) else 0)) 1 := by
    refine le_min ?_ (by norm_num)
    split_ifs <;> norm_num
  rw [max_eq_right hX]
  rfl

/-- The confidence the source computes at skinPixels = 152,
totalPixels = 1013, 152 recorded coordinates: the exact percentage
15.004... exceeds 15, so the region bonus applies. -/
theorem skinScanVerdict_cex_confidence (rs : List (ℕ × ℕ)) (h : rs.length = 152) :
    (skinScanVerdict 152 1013 rs).confidence = 1 / 2 := by
  norm_num [skinScanVerdict, round2, round_eq, h, min_def]

/-- The confidence the frozen claim C2 predicts at the same scan: the
rounded percentage is exactly 15, the region bonus does not apply. -/
theorem claimSkinVerdict_cex_confidence (rs : List (ℕ × ℕ)) (h : rs.length = 152) :
    (claimSkinVerdict 152 1013 rs).confidence = 3 / 10 := by
  norm_num [claimSkinVerdict, round2, round_eq, h, min_def, max_def]

/-- C2 counterexample.  The scan of 861 black samples followed by 152 skin
samples completes (the early exit never fires) with skinPixels = 152,
totalPixels = 1013 and 152 recorded coordinates, and on that completed scan
the verdict of the source differs from the claim formulas with the
percentage rounded before comparison: confidence 0.5 versus 0.3. -/
theorem C2_rounding_counterexample :
    ((scanGo 3 100 cexSamples 0 0 0 []).1 = 152)
    ∧ ((scanGo 3 100 cexSamples 0 0 0 []).2.1 = 1013)
    ∧ ((scanGo 3 100 cexSamples 0 0 0 []).2.2.length = 152)
    ∧ (skinScanVerdict (scanGo 3 100 cexSamples 0 0 0 []).1
         (scanGo 3 100 cexSamples 0 0 0 []).2.1
         (scanGo 3 100 cexSamples 0 0 0 []).2.2
       ≠ claimSkinVerdict (scanGo 3 100 cexSamples 0 0 0 []).1
         (scanGo 3 100 cexSamples 0 0 0 []).2.1
         (scanGo 3 100 cexSamples 0 0 0 []).2.2) := by
  have hsplit : scanGo 3 100 cexSamples 0 0 0 []
      = scanGo 3 100 (List.replicate 152 (200, 60, 30)) (0 + 861 * (3 * 8)) 0 (0 + 861) [] := by
    rw [show cexSamples
        = List.replicate 861 (0, 0, 0) ++ List.replicate 152 (200, 60, 30) from rfl]
    exact scanGo_zerorun 3 100 861 _ 0 0 []
  obtain ⟨h1, h2, h3⟩ :=
    scanGo_skinrun 3 100 152 (0 + 861 * (3 * 8)) 0 (0 + 861) [] (by norm_num)
  rw [hsplit]
  have h1' : (scanGo 3 100 (List.replicate 152 (200, 60, 30))
      (0 + 861 * (3 * 8)) 0 (0 + 861) []).1 = 152 := by rw [h1]
  have h2' : (scanGo 3 100 (List.replicate 152 (200, 60, 30))
      (0 + 861 * (3 * 8)) 0 (0 + 861) []).2.1 = 1013 := by rw [h2]
  have h3' : (scanGo 3 100 (List.replicate 152 (200, 60, 30))
      (0 + 861 * (3 * 8)) 0 (0 + 861) []).2.2.length = 152 := by
    rw [h3]; rfl
  refine ⟨h1', h2', h3', ?_⟩
  rw [h1', h2']
  intro heq
  have hc := congrArg ImageAnalysisResult.confidence heq
  rw [skinScanVerdict_cex_confidence _ h3', claimSkinVerdict_cex_confidence _ h3'] at hc
  norm_num at hc

/-! ## Claim C7: sampling stride and the early exit -/

theorem rgb_imp_skin (r g b : ℕ) (h : rgbClassifier r g b = true) :
    isSkinPixel r g b = true := by
  have h95 : 95 < r := by
    simp only [rgbClassifier, Bool.and_eq_true, decide_eq_true_eq] at h
    exact h.1.1.1.1.1.1.1
  have hs : ¬(r + g + b = 0) := by omega
  simp only [isSkinPixel]
  rw [if_neg hs]
  simp only [rgbClassifier] at h
  rw [h, Bool.true_or, Bool.true_or]

/-- If every remaining sample is skin and the running counts satisfy
skinPixels = totalPixels <= 100 with at least 101 samples in total, the scan
stops with totalPixels = 101: the first break check that can fire is the one
at totalPixels = 101, where the ratio is 1 > 0.35. -/
theorem scanGo_allskin (ch w : ℕ) (l : List (ℕ × ℕ × ℕ)) :
    ∀ (i t : ℕ) (rs : List (ℕ × ℕ)),
    (∀ p ∈ l, isSkinPixel p.1 p.2.1 p.2.2 = true) → t ≤ 100 → 101 ≤ t + l.length →
    (scanGo ch w l i t t rs).2.1 = 101 := by
  induction l with
  | nil =>
      intro i t rs hall ht hlen
      simp only [List.length_nil] at hlen
      omega
  | cons p rest ih =>
      intro i t rs hall ht hlen
      obtain ⟨r, g, b⟩ := p
      have hskin : isSkinPixel r g b = true := hall (r, g, b) (List.mem_cons_self _ _)
      simp only [scanGo, hskin, if_true]
      by_cases h100 : t = 100
      · subst h100
        rw [if_pos ⟨by norm_num, by
          rw [show ((100 + 1 : ℕ) : ℚ) / ((100 + 1 : ℕ) : ℚ) = 1 from
            div_self (by norm_num)]
          norm_num⟩]
      · rw [if_neg (by rintro ⟨hgt, -⟩; omega)]
        exact ih (i + ch * 8) (t + 1) _
          (fun q hq => hall q (List.mem_cons_of_mem _ hq)) (by omega)
          (by simp only [List.length_cons] at hlen; omega)

/-- C7.  The scan samples at a fixed stride of 8 pixels and stops as soon
as totalPixels > 100 with ratio above 0.35: on any buffer (at least 3
channels) all of whose sampled pixels satisfy the RGB rule and which yields
more than 100 samples, the scan halts with sample count at least 101 and at
most bufferLength / 8. -/
theorem C7_scan_early_exit (data : List ℕ) (width channels : ℕ)
    (hch : 3 ≤ channels)
    (hall : ∀ p ∈ sampledPixels data channels, rgbClassifier p.1 p.2.1 p.2.2 = true)
    (hcount : 100 < (sampledPixels data channels).length) :
    (101 ≤ (scanBuffer data width channels).2.1)
    ∧ ((scanBuffer data width channels).2.1 ≤ data.length / 8) := by
  have hskinall : ∀ p ∈ sampledPixels data channels, isSkinPixel p.1 p.2.1 p.2.2 = true :=
    fun p hp => rgb_imp_skin _ _ _ (hall p hp)
  have h101 : (scanBuffer data width channels).2.1 = 101 :=
    scanGo_allskin channels width (sampledPixels data channels) 0 0 []
      hskinall (by norm_num) (by omega)
  have hlen : (sampledPixels data channels).length
      = numSamples data.length (channels * 8) := by
    simp [sampledPixels]
  refine ⟨by omega, ?_⟩
  rw [h101]
  rw [hlen] at hcount
  have hstep : 0 < channels * 8 := by omega
  have hmul : 101 * (channels * 8) ≤ data.length + channels * 8 - 1 :=
    (Nat.le_div_iff_mul_le hstep).mp (by unfold numSamples at hcount; omega)
  have hbig : 2401 ≤ data.length := by
    omega
  exact (Nat.le_div_iff_mul_le (by norm_num)).mpr (by omega)

theorem getD_flatten_replicate (blk : List ℕ) (d : ℕ) :
    ∀ (n k j : ℕ), k < n → j < blk.length →
    ((List.replicate n blk).flatten.getD (k * blk.length + j) d) = blk.getD j d := by
  intro n
  induction n with
  | zero => intro k j hk hj; omega
  | succ n ih =>
      intro k j hk hj
      rw [List.replicate_succ, List.flatten_cons]
      cases k with
      | zero =>
          rw [Nat.zero_mul, Nat.zero_add]
          exact List.getD_append _ _ _ _ hj
      | succ k =>
          rw [show (k + 1) * blk.length + j = blk.length + (k * blk.length + j) from by ring]
          rw [List.getD_append_right _ _ _ _ (by omega), Nat.add_sub_cancel_left]
          exact ih k j (by omega) hj

theorem length_flatten_replicate (blk : List ℕ) :
    ∀ n : ℕ, ((List.replicate n blk).flatten).length = n * blk.length := by
  intro n
  induction n with
  | zero => simp
  | succ n ih =>
      rw [List.replicate_succ, List.flatten_cons, List.length_append, ih]
      ring

theorem c7buf_length : c7buf.length = 2424 := by
  rw [show c7buf = (List.replicate 101 ([200, 60, 30] ++ List.replicate 21 0)).flatten
      from rfl]
  rw [length_flatten_replicate]
  rfl

theorem c7buf_samples : sampledPixels c7buf 3 = List.replicate 101 (200, 60, 30) := by
  have hblk : ([200, 60, 30] ++ List.replicate 21 0).length = 24 := rfl
  have hn : numSamples c7buf.length (3 * 8) = 101 := by
    rw [c7buf_length]
    rfl
  rw [List.eq_replicate_iff]
  constructor
  · simp [sampledPixels, hn]
  · intro p hp
    simp only [sampledPixels, hn, List.mem_map, List.mem_range] at hp
    obtain ⟨k, hk, rfl⟩ := hp
    have h0 := getD_flatten_replicate ([200, 60, 30] ++ List.replicate 21 0) 0 101 k 0 hk
      (by rw [hblk]; omega)
    have h1 := getD_flatten_replicate ([200, 60, 30] ++ List.replicate 21 0) 0 101 k 1 hk
      (by rw [hblk]; omega)
    have h2 := getD_flatten_replicate ([200, 60, 30] ++ List.replicate 21 0) 0 101 k 2 hk
      (by rw [hblk]; omega)
    rw [hblk] at h0 h1 h2
    rw [show c7buf = (List.replicate 101 ([200, 60, 30] ++ List.replicate 21 0)).flatten
        from rfl]
    rw [show k * (3 * 8) = k * 24 + 0 from by ring, h0,
      show k * 24 + 0 + 1 = k * 24 + 1 from by ring, h1,
      show k * 24 + 1 + 1 = k * 24 + 2 from by ring, h2]
    rfl

/-- Witness for C7: a buffer of 101 blocks of 8 RGB pixels whose sampled
pixels are all (200, 60, 30). -/
theorem C7_scan_early_exit_witness :
    ((3 : ℕ) ≤ 3
      ∧ (∀ p ∈ sampledPixels c7buf 3, rgbClassifier p.1 p.2.1 p.2.2 = true)
      ∧ 100 < (sampledPixels c7buf 3).length)
    ∧ (101 ≤ (scanBuffer c7buf 100 3).2.1
       ∧ (scanBuffer c7buf 100 3).2.1 ≤ c7buf.length / 8) := by
  have hch : (3 : ℕ) ≤ 3 := le_refl 3
  have hall : ∀ p ∈ sampledPixels c7buf 3, rgbClassifier p.1 p.2.1 p.2.2 = true := by
    rw [c7buf_samples]
    intro p hp
    rw [(List.eq_of_mem_replicate hp : p = (200, 60, 30))]
    rfl
  have hcount : 100 < (sampledPixels c7buf 3).length := by
    rw [c7buf_samples, List.length_replicate]
    omega
  exact ⟨⟨hch, hall, hcount⟩, C7_scan_early_exit c7buf 100 3 hch hall hcount⟩

/-! ## Text classifier lemmas -/

theorem scanKeywords_counts (ntext : List Char) (cat : String) (kws : List String) :
    ∀ acc : TextScanAcc,
    ((kws.foldl
        (fun acc kw =>
          if kwHit kw ntext then
            { detectedWords := acc.detectedWords ++ [kw]
              categories := insertIfAbsent acc.categories cat
              totalMatches := acc.totalMatches + 1 }
          else acc)
        acc).totalMatches
      = acc.totalMatches + kws.countP (fun kw => kwHit kw ntext))
    ∧ ((kws.foldl
        (fun acc kw =>
          if kwHit kw ntext then
            { detectedWords := acc.detectedWords ++ [kw]
              categories := insertIfAbsent acc.categories cat
              totalMatches := acc.totalMatches + 1 }
          else acc)
        acc).detectedWords.length
      = acc.detectedWords.length + kws.countP (fun kw => kwHit kw ntext)) := by
  induction kws with
  | nil => intro acc; simp
  | cons kw rest ih =>
      intro acc
      by_cases hk : kwHit kw ntext
      · simp only [List.foldl_cons, if_pos hk]
        obtain ⟨ih1, ih2⟩ := ih _
        rw [ih1, ih2]
        simp [List.countP_cons, hk]
        omega
      · simp only [List.foldl_cons, if_neg hk]
        obtain ⟨ih1, ih2⟩ := ih acc
        rw [ih1, ih2]
        simp [List.countP_cons, hk]

theorem scanCategories_counts (ntext : List Char) :
    ∀ (cats : List (String × List String)) (acc : TextScanAcc),
    ((cats.foldl
        (fun acc p =>
          p.2.foldl
            (fun acc kw =>
              if kwHit kw ntext then
                { detectedWords := acc.detectedWords ++ [kw]
                  categories := insertIfAbsent acc.categories p.1
                  totalMatches := acc.totalMatches + 1 }
              else acc)
            acc)
        acc).totalMatches
      = acc.totalMatches
        + ((cats.map fun p => p.2.map fun kw => (p.1, kw)).flatten.countP
            fun p => kwHit p.2 ntext))
    ∧ ((cats.foldl
        (fun acc p =>
          p.2.foldl
            (fun acc kw =>
              if kwHit kw ntext then
                { detectedWords := acc.detectedWords ++ [kw]
                  categories := insertIfAbsent acc.categories p.1
                  totalMatches := acc.totalMatches + 1 }
              else acc)
            acc)
        acc).detectedWords.length
      = acc.detectedWords.length
        + ((cats.map fun p => p.2.map fun kw => (p.1, kw)).flatten.countP
            fun p => kwHit p.2 ntext)) := by
  intro cats
  induction cats with
  | nil => intro acc; simp
  | cons p rest ih =>
      intro acc
      simp only [List.foldl_cons, List.map_cons, List.flatten_cons, List.countP_append]
      obtain ⟨ih1, ih2⟩ := ih _
      obtain ⟨hs1, hs2⟩ := scanKeywords_counts ntext p.1 p.2 acc
      rw [ih1, ih2, hs1, hs2, List.countP_map]
      constructor <;> [skip; skip] <;> · rw [Nat.add_assoc]; rfl

theorem scanCategories_totalMatches (ntext : List Char) :
    (scanCategories ntext).totalMatches = totalKeywordMatches ntext := by
  have h := (scanCategories_counts ntext EXPLICIT_KEYWORDS
    { detectedWords := [], categories := [], totalMatches := 0 }).1
  simpa [scanCategories, totalKeywordMatches, catalogPairs] using h

theorem scanCategories_words_length (ntext : List Char) :
    (scanCategories ntext).detectedWords.length = totalKeywordMatches ntext := by
  have h := (scanCategories_counts ntext EXPLICIT_KEYWORDS
    { detectedWords := [], categories := [], totalMatches := 0 }).2
  simpa [scanCategories, totalKeywordMatches, catalogPairs] using h

theorem dedupFirstGo_eq_nil (seen : List String) (l : List String) :
    dedupFirstGo seen l = [] ↔ ∀ x ∈ l, x ∈ seen := by
  induction l generalizing seen with
  | nil => simp [dedupFirstGo]
  | cons x xs ih =>
      by_cases hx : x ∈ seen
      · simp [dedupFirstGo, hx, ih]
      · simp [dedupFirstGo, hx]

theorem dedupFirst_eq_nil (l : List String) : dedupFirst l = [] ↔ l = [] := by
  rw [dedupFirst, dedupFirstGo_eq_nil]
  simp [List.eq_nil_iff_forall_not_mem]

theorem normalizeText_nil : normalizeText [] = [] := rfl

theorem totalKeywordMatches_nil : totalKeywordMatches [] = 0 := by decide

/-! ## Claim C4: confidence and hasExplicitText of the text classifier -/

/-- C4.  For every recognized text, the classifier returns confidence =
min(totalMatchCount * 0.3, 1), where totalMatchCount counts one hit per
(category, keyword) pair matching the normalized text (by word-boundary
regex or raw substring containment), and hasExplicitText = (at least one
distinct detected word) and (confidence > 0.3); moreover some distinct
word is detected exactly when the match count is positive. -/
theorem C4_text_classifier (rawText : String) :
    ((analyzeImageTextOk rawText).confidence
        = min ((totalKeywordMatches (normalizeText (jsTrim rawText.data)) : ℚ) * 0.3) 1)
    ∧ ((analyzeImageTextOk rawText).hasExplicitText
        = (decide ((analyzeImageTextOk rawText).detectedWords ≠ [])
           && decide ((0.3 : ℚ) < (analyzeImageTextOk rawText).confidence)))
    ∧ ((analyzeImageTextOk rawText).detectedWords ≠ []
        ↔ 0 < totalKeywordMatches (normalizeText (jsTrim rawText.data))) := by
  by_cases hnil : jsTrim rawText.data = []
  · rw [show analyzeImageTextOk rawText = emptyTextAnalysis from by
      simp [analyzeImageTextOk, hnil]]
    rw [hnil, normalizeText_nil, totalKeywordMatches_nil]
    refine ⟨by norm_num [emptyTextAnalysis], ?_, by simp [emptyTextAnalysis]⟩
    simp [emptyTextAnalysis]
  · have hwords : (analyzeImageTextOk rawText).detectedWords
        = (analyzeTextContent (jsTrim rawText.data)).detectedWords := by
      simp [analyzeImageTextOk, hnil]
    have hconf2 : (analyzeImageTextOk rawText).confidence
        = (analyzeTextContent (jsTrim rawText.data)).confidence := by
      simp [analyzeImageTextOk, hnil]
    have hhet : (analyzeImageTextOk rawText).hasExplicitText
        = (decide (0 < (analyzeTextContent (jsTrim rawText.data)).detectedWords.length)
           && decide ((0.3 : ℚ) < (analyzeTextContent (jsTrim rawText.data)).confidence)) := by
      simp [analyzeImageTextOk, hnil]
    have hconf : (analyzeTextContent (jsTrim rawText.data)).confidence
        = min ((totalKeywordMatches (normalizeText (jsTrim rawText.data)) : ℚ) * 0.3) 1 := by
      simp only [analyzeTextContent]
      rw [scanCategories_totalMatches]
    have hwordsiff : (analyzeTextContent (jsTrim rawText.data)).detectedWords ≠ []
        ↔ 0 < totalKeywordMatches (normalizeText (jsTrim rawText.data)) := by
      simp only [analyzeTextContent]
      rw [Ne, dedupFirst_eq_nil, ← scanCategories_words_length]
      exact List.length_pos.symm
    refine ⟨hconf2.trans hconf, ?_, by rw [hwords]; exact hwordsiff⟩
    rw [hhet, hwords, hconf2]
    have hdec : decide (0 < (analyzeTextContent (jsTrim rawText.data)).detectedWords.length)
        = decide ((analyzeTextContent (jsTrim rawText.data)).detectedWords ≠ []) := by
      rw [decide_eq_decide]
      exact List.length_pos
    rw [hdec]

/-! ## Claim C5: the worked example of the spec -/

theorem example_text_not_trim_nil :
    ¬(jsTrim "this is a nude and sexual image".data = []) := by decide

theorem example_text_matches :
    (scanCategories (normalizeText
      (jsTrim "this is a nude and sexual image".data))).totalMatches = 3 := by decide

theorem example_text_open :
    analyzeImageTextOk "this is a nude and sexual image"
      = { hasExplicitText :=
            decide (0 < (analyzeTextContent
                (jsTrim "this is a nude and sexual image".data)).detectedWords.length)
              && decide ((0.3 : ℚ) < (analyzeTextContent
                (jsTrim "this is a nude and sexual image".data)).confidence)
          confidence := (analyzeTextContent
            (jsTrim "this is a nude and sexual image".data)).confidence
          detectedWords := (analyzeTextContent
            (jsTrim "this is a nude and sexual image".data)).detectedWords
          categories := (analyzeTextContent
            (jsTrim "this is a nude and sexual image".data)).categories
          extractedText :=
            String.mk (jsTrim "this is a nude and sexual image".data) } := by
  simp only [analyzeImageTextOk]
  rw [if_neg example_text_not_trim_nil]

/-- C5 counterexample.  Classifying "this is a nude and sexual image" does
not yield confidence 0.6: the keyword "sex" also matches by substring
containment inside "sexual", so there are 3 hits, not 2. -/
theorem C5_example_counterexample :
    (analyzeImageTextOk "this is a nude and sexual image").confidence ≠ 3 / 5 := by
  rw [example_text_open]
  show (analyzeTextContent (jsTrim "this is a nude and sexual image".data)).confidence ≠ 3 / 5
  simp only [analyzeTextContent]
  rw [example_text_matches]
  norm_num [min_def]

/-- C5 (amended).  Classifying "this is a nude and sexual image" yields
categories {nudity, sexual} and detectedWords {nude, sex, sexual} ("sex"
matches by substring containment inside "sexual"), hence 3 hits,
confidence = min(3 x 0.3, 1.0) = 0.9, and hasExplicitText = true. -/
theorem C5_example_amended :
    ((analyzeImageTextOk "this is a nude and sexual image").categories
        = ["nudity", "sexual"])
    ∧ ((analyzeImageTextOk "this is a nude and sexual image").detectedWords
        = ["nude", "sex", "sexual"])
    ∧ ((analyzeImageTextOk "this is a nude and sexual image").confidence = 9 / 10)
    ∧ ((analyzeImageTextOk "this is a nude and sexual image").hasExplicitText = true) := by
  have hconfval : (analyzeTextContent
      (jsTrim "this is a nude and sexual image".data)).confidence = 9 / 10 := by
    simp only [analyzeTextContent]
    rw [example_text_matches]
    norm_num [min_def]
  have hwordsval : (analyzeTextContent
      (jsTrim "this is a nude and sexual image".data)).detectedWords
      = ["nude", "sex", "sexual"] := by decide
  rw [example_text_open]
  refine ⟨by decide, hwordsval, hconfval, ?_⟩
  show (decide (0 < (analyzeTextContent
      (jsTrim "this is a nude and sexual image".data)).detectedWords.length)
    && decide ((0.3 : ℚ) < (analyzeTextContent
      (jsTrim "this is a nude and sexual image".data)).confidence)) = true
  rw [hwordsval, hconfval]
  norm_num

/-! ## Batch orchestrator lemmas -/

theorem processChunks_eq_map (f : String → ImageAnalysisDetail) :
    ∀ l : List String, processChunks f l = l.map f
  | [] => rfl
  | [u] => rfl
  | u1 :: u2 :: rest => by
      simp only [processChunks, List.map_cons]
      rw [processChunks_eq_map f rest]

theorem mem_dedupFirstGo (x : String) :
    ∀ (l seen : List String), x ∈ dedupFirstGo seen l ↔ (x ∈ l ∧ x ∉ seen) := by
  intro l
  induction l with
  | nil => intro seen; simp [dedupFirstGo]
  | cons y ys ih =>
      intro seen
      by_cases hy : y ∈ seen
      · rw [dedupFirstGo, if_pos hy, ih]
        constructor
        · rintro ⟨hm, hn⟩
          exact ⟨List.mem_cons_of_mem _ hm, hn⟩
        · rintro ⟨hm, hn⟩
          rcases List.mem_cons.mp hm with rfl | hm
          · exact absurd hy hn
          · exact ⟨hm, hn⟩
      · rw [dedupFirstGo, if_neg hy]
        constructor
        · intro hm
          rcases List.mem_cons.mp hm with rfl | hm
          · exact ⟨List.mem_cons_self _ _, hy⟩
          · obtain ⟨h1, h2⟩ := (ih (y :: seen)).mp hm
            refine ⟨List.mem_cons_of_mem _ h1, fun hc => h2 (List.mem_cons_of_mem _ hc)⟩
        · rintro ⟨hm, hn⟩
          rcases List.mem_cons.mp hm with rfl | hm
          · exact List.mem_cons_self _ _
          · by_cases hxy : x = y
            · subst hxy; exact List.mem_cons_self _ _
            · exact List.mem_cons_of_mem _
                ((ih (y :: seen)).mpr ⟨hm, by simp [hxy, hn]⟩)

theorem mem_dedupFirst (x : String) (l : List String) : x ∈ dedupFirst l ↔ x ∈ l := by
  rw [dedupFirst, mem_dedupFirstGo]
  simp

theorem filter_length_pos {α : Type} (p : α → Bool) (l : List α) :
    0 < (l.filter p).length ↔ ∃ a ∈ l, p a = true := by
  rw [List.length_pos]
  constructor
  · intro h
    obtain ⟨a, ha⟩ := List.exists_mem_of_ne_nil _ h
    exact ⟨a, List.mem_of_mem_filter ha, List.of_mem_filter ha⟩
  · rintro ⟨a, hm, hp⟩
    exact List.ne_nil_of_mem (List.mem_filter.mpr ⟨hm, hp⟩)

theorem analyzeImagesBatch_miss (bc : Cache ExplicitContentAnalysis) (now : ℕ)
    (urls : List String) (f : String → ImageAnalysisDetail)
    (h : (safeGetCache bc (batchCacheKey urls) now).1 = none) :
    analyzeImagesBatch bc now urls f
      = (aggregateBatch (processChunks f urls),
         safeSetCache (safeGetCache bc (batchCacheKey urls) now).2 (batchCacheKey urls)
           (aggregateBatch (processChunks f urls)) 300 now) := by
  simp only [analyzeImagesBatch]
  rw [h]

theorem analyzeImagesBatch_hit (bc : Cache ExplicitContentAnalysis) (now : ℕ)
    (urls : List String) (f : String → ImageAnalysisDetail) (r : ExplicitContentAnalysis)
    (h : (safeGetCache bc (batchCacheKey urls) now).1 = some r) :
    (analyzeImagesBatch bc now urls f).1 = r := by
  simp only [analyzeImagesBatch]
  rw [h]

theorem aggregateBatch_spec (results : List ImageAnalysisDetail) :
    ((aggregateBatch results).details = results)
    ∧ ((aggregateBatch results).hasExplicitContent = true
        ↔ (∃ d ∈ results, d.isExplicit = true)
          ∨ (∃ d ∈ results, d.textAnalysis.hasExplicitText = true
              ∧ (0.3 : ℚ) < d.textAnalysis.confidence))
    ∧ (∀ c : String, c ∈ (aggregateBatch results).detectedCategories
        ↔ ∃ d ∈ results, c ∈ d.textAnalysis.categories)
    ∧ ((aggregateBatch results).confidence
        = max (listMaxD ((results.filter fun a => a.isExplicit).map fun d => d.confidence))
              (listMaxD ((results.filter fun a =>
                  a.textAnalysis.hasExplicitText
                    && decide ((0.3 : ℚ) < a.textAnalysis.confidence)).map
                fun d => d.textAnalysis.confidence))) := by
  refine ⟨rfl, ?_, ?_, rfl⟩
  · show (decide (0 < (results.filter fun a => a.isExplicit).length)
        || decide (0 < (results.filter fun a =>
            a.textAnalysis.hasExplicitText
              && decide ((0.3 : ℚ) < a.textAnalysis.confidence)).length)) = true
      ↔ _
    rw [Bool.or_eq_true, decide_eq_true_eq, decide_eq_true_eq,
      filter_length_pos, filter_length_pos]
    simp [Bool.and_eq_true, decide_eq_true_eq]
  · intro c
    show c ∈ dedupFirst (results.map fun a => a.textAnalysis.categories).flatten ↔ _
    rw [mem_dedupFirst, List.mem_flatten]
    constructor
    · rintro ⟨l, hl, hc⟩
      obtain ⟨d, hd, rfl⟩ := List.mem_map.mp hl
      exact ⟨d, hd, hc⟩
    · rintro ⟨d, hd, hc⟩
      exact ⟨d.textAnalysis.categories, List.mem_map.mpr ⟨d, hd, rfl⟩, hc⟩

/-! ## Claim C8: batch aggregation -/

/-- C8.  On a batch cache miss, analyzeImagesBatch returns the per-URL
details in input order; hasExplicitContent holds exactly when some detail
is explicit or some detail has explicit text with text confidence above
0.3; detectedCategories is (as a set) the union of the per-detail category
sets; and the batch confidence is max(overallConfidence, textConfidence),
the two maxima being 0 when their detail set is empty. -/
theorem C8_batch_aggregation (bc : Cache ExplicitContentAnalysis) (now : ℕ)
    (urls : List String) (f : String → ImageAnalysisDetail)
    (hmiss : (safeGetCache bc (batchCacheKey urls) now).1 = none) :
    ((analyzeImagesBatch bc now urls f).1.details = urls.map f)
    ∧ ((analyzeImagesBatch bc now urls f).1.hasExplicitContent = true
        ↔ (∃ d ∈ urls.map f, d.isExplicit = true)
          ∨ (∃ d ∈ urls.map f, d.textAnalysis.hasExplicitText = true
              ∧ (0.3 : ℚ) < d.textAnalysis.confidence))
    ∧ (∀ c : String, c ∈ (analyzeImagesBatch bc now urls f).1.detectedCategories
        ↔ ∃ d ∈ urls.map f, c ∈ d.textAnalysis.categories)
    ∧ ((analyzeImagesBatch bc now urls f).1.confidence
        = max (listMaxD (((urls.map f).filter fun a => a.isExplicit).map
                fun d => d.confidence))
              (listMaxD (((urls.map f).filter fun a =>
                  a.textAnalysis.hasExplicitText
                    && decide ((0.3 : ℚ) < a.textAnalysis.confidence)).map
                fun d => d.textAnalysis.confidence))) := by
  have hopen := analyzeImagesBatch_miss bc now urls f hmiss
  rw [hopen]
  simp only [processChunks_eq_map]
  exact aggregateBatch_spec (urls.map f)

/-- Witness for C8 at a concrete input: empty batch cache, three URLs, the
fixed explicit per-URL assignment. -/
theorem C8_batch_aggregation_witness :
    ((safeGetCache ([] : Cache ExplicitContentAnalysis)
        (batchCacheKey ["a", "b", "c"]) 0).1 = none)
    ∧ ((analyzeImagesBatch [] 0 ["a", "b", "c"] explicitDetail).1.details
        = ["a", "b", "c"].map explicitDetail)
    ∧ (∀ c : String,
        c ∈ (analyzeImagesBatch [] 0 ["a", "b", "c"] explicitDetail).1.detectedCategories
          ↔ ∃ d ∈ ["a", "b", "c"].map explicitDetail, c ∈ d.textAnalysis.categories) := by
  have hmiss : (safeGetCache ([] : Cache ExplicitContentAnalysis)
      (batchCacheKey ["a", "b", "c"]) 0).1 = none := rfl
  obtain ⟨h1, -, h3, -⟩ := C8_batch_aggregation [] 0 ["a", "b", "c"] explicitDetail hmiss
  exact ⟨hmiss, h1, h3⟩

/-! ## Claim C10: the batch cache key is not injective -/

/-- C10.  The batch cache key is the comma-join of the URL list, so the
distinct inputs ["a,b"] and ["a", "b"] share one key; after a batch for
["a", "b"] is cached, the batch call for ["a,b"] returns that cached
result unchanged, with 2 details for 1 requested URL. -/
theorem C10_batch_cache_key_collision :
    (batchCacheKey ["a,b"] = batchCacheKey ["a", "b"])
    ∧ ((["a,b"] : List String) ≠ ["a", "b"])
    ∧ ((analyzeImagesBatch (analyzeImagesBatch [] 0 ["a", "b"] plainDetail).2
          0 ["a,b"] plainDetail).1
        = (analyzeImagesBatch [] 0 ["a", "b"] plainDetail).1)
    ∧ ((analyzeImagesBatch (analyzeImagesBatch [] 0 ["a", "b"] plainDetail).2
          0 ["a,b"] plainDetail).1.details.length = 2)
    ∧ ((["a,b"] : List String).length = 1) := by
  have hkey : batchCacheKey ["a,b"] = batchCacheKey ["a", "b"] := rfl
  have hmiss : (safeGetCache ([] : Cache ExplicitContentAnalysis)
      (batchCacheKey ["a", "b"]) 0).1 = none := rfl
  have hopen := analyzeImagesBatch_miss [] 0 ["a", "b"] plainDetail hmiss
  have hget2 : (safeGetCache (analyzeImagesBatch [] 0 ["a", "b"] plainDetail).2
      (batchCacheKey ["a,b"]) 0).1
      = some (analyzeImagesBatch [] 0 ["a", "b"] plainDetail).1 := by
    rw [hkey, hopen]
    exact safeGetCache_set_live _ _ _ _ _ _ (by omega)
  have hsecond := analyzeImagesBatch_hit _ 0 ["a,b"] plainDetail _ hget2
  refine ⟨hkey, by decide, hsecond, ?_, rfl⟩
  rw [hsecond, show (analyzeImagesBatch [] 0 ["a", "b"] plainDetail).1
      = aggregateBatch (processChunks plainDetail ["a", "b"]) from congrArg Prod.fst hopen]
  rfl

end ImageContentAnalyzer
